import Mathlib

/-!
# Verification of the rcc constant-folding engine (`src/fold.rs`)

This file gives a shallow embedding of the constant-folding engine of the
rcc C compiler front-end (`src/fold.rs`, with the `Literal` type from
`src/data/lex.rs`) and proves or refutes the frozen claims about it.

Modelling conventions:
* Rust `i64` is modelled as `Int` together with explicit wrapping
  (`wrapI64`) at the points where the source uses wrapping or overflowing
  primitives; `u64` is `Nat` with explicit `% 2^64`; `u8` is `Nat` with
  explicit `% 256`.
* Rust `f64` is abstracted by `Rat`.  No claim in scope depends on IEEE
  rounding, infinities or NaN; the only float facts used are equality
  with `0.0` and the clamping integer casts, which `Rat` models.
* Rust panics (the `unreachable!` in `shift_right`, and the panics of
  `overflowing_div`/`overflowing_rem`/`wrapping_div`/`wrapping_rem` on a
  zero divisor) are modelled as a distinguished error `FoldErr.panicked`,
  so that the fold function is total.
* `InternedStr` is modelled as `Nat` (an opaque interned handle).
* The `Type` enum of the repository is not part of the given sources
  (only `fold.rs`, `lib.rs`, `data/lex.rs`, `ir/mod.rs` are); `CType`
  below is modelled from the spec's description of the type interface
  (§3: `is_integral`, `is_signed`, `is_pointer`, `sizeof`, with `Bool`,
  `Float`, `Double` and enumerations distinguished).
-/

namespace RccFold

/-! ## Machine-integer helpers -/

def i64min : Int := -(2 ^ 63)

def i64max : Int := 2 ^ 63 - 1

def inRangeI64 (x : Int) : Prop := i64min ≤ x ∧ x ≤ i64max

instance (x : Int) : Decidable (inRangeI64 x) := by
  unfold inRangeI64; infer_instance

/-- Two's-complement wrap of an integer into the `i64` range. -/
def wrapI64 (x : Int) : Int := (x + 2 ^ 63) % (2 ^ 64 : Int) - 2 ^ 63

/-- Wrap of an integer into the `u64` range. -/
def wrapU64 (x : Int) : Nat := (x % (2 ^ 64 : Int)).toNat

/-- Wrap of an integer into the `u8` range. -/
def wrapU8 (x : Int) : Nat := (x % (256 : Int)).toNat

/-- The `u64` bit pattern of an `i64` value (two's complement). -/
def i64bits (x : Int) : Nat := wrapU64 x

/-- The `i64` value whose `u64` bit pattern is `n` (two's complement). -/
def bitsI64 (n : Nat) : Int := if n < 2 ^ 63 then (n : Int) else (n : Int) - 2 ^ 64

theorem wrapI64_eq_self {x : Int} (h : inRangeI64 x) : wrapI64 x = x := by
  obtain ⟨h1, h2⟩ := h
  unfold wrapI64
  unfold i64min at h1
  unfold i64max at h2
  omega

theorem wrapI64_eq_iff {x : Int} : wrapI64 x = x ↔ inRangeI64 x := by
  constructor
  · intro h
    unfold wrapI64 at h
    unfold inRangeI64 i64min i64max
    have h1 : 0 ≤ (x + 2 ^ 63) % (2 ^ 64 : Int) := Int.emod_nonneg _ (by norm_num)
    have h2 : (x + 2 ^ 63) % (2 ^ 64 : Int) < 2 ^ 64 := Int.emod_lt_of_pos _ (by norm_num)
    omega
  · exact wrapI64_eq_self

/-! ## Error and location model (`data/lex.rs`, `data/error.rs`) -/

/-- `Location`: a `(span, filename)` pair; spans are byte offsets and the
filename is an interned handle.  Folding never inspects the contents. -/
structure Location where
  spanStart : Nat
  spanEnd : Nat
  filename : Nat
deriving DecidableEq, Repr

/-- The error payloads the fold engine can produce.  `constOverflow` and
`divideByZero` model `SemanticError::ConstOverflow { is_positive }` and
`SemanticError::DivideByZero`; `semanticMsg` models the string-carrying
semantic errors produced by `semantic_err!` and by the stringified
`sizeof` failure; `shiftTooLarge` models the formatted
"cannot shift left by {max} or more bits for type '{t}' (got {got})"
error, keeping the two numbers (the type display is elided);
`panicked` models a Rust panic. -/
inductive FoldErr where
  | constOverflow (isPositive : Bool)
  | divideByZero
  | semanticMsg (msg : String)
  | shiftTooLarge (maxShift : Nat) (shift : Nat)
  | panicked (msg : String)
deriving DecidableEq, Repr

/-- `CompileError` = `Locatable<Error>`: an error datum with a location. -/
structure CompileError where
  data : FoldErr
  location : Location
deriving DecidableEq, Repr

/-! ## Literals (`data/lex.rs`) -/

/-- `Literal`: `Int(i64)`, `UnsignedInt(u64)`, `Float(f64)`,
`Str(InternedStr)`, `Char(u8)`. -/
inductive Literal where
  | int (i : Int)
  | unsignedInt (u : Nat)
  | float (f : Rat)
  | str (s : Nat)
  | char (c : Nat)
deriving DecidableEq, Repr

/-! ## The type interface

Modelled from the spec: the repository's `Type` enum (in `data/types.rs`)
is not among the given sources; only its interface is described in the
spec (§3).  `other` stands for every type that is not `Bool`, `Float`,
`Double` or an enumeration, and carries the answers to the four queries
(`_Bool` is unsigned and one byte; `float`/`double` are 4/8 bytes and not
integral; enumerations are integer-compatible and signed; a `none` size
means `sizeof` fails, e.g. for an incomplete type). -/
inductive CType where
  | bool
  | float
  | double
  | cenum (members : List (Nat × Int))
  | other (integral : Bool) (signed : Bool) (pointer : Bool) (size : Option Nat)
deriving DecidableEq, Repr

def CType.is_integral : CType → Bool
  | .bool => true
  | .float => false
  | .double => false
  | .cenum _ => true
  | .other i _ _ _ => i

def CType.is_signed : CType → Bool
  | .bool => false
  | .float => true
  | .double => true
  | .cenum _ => true
  | .other _ s _ _ => s

def CType.is_pointer : CType → Bool
  | .other _ _ p _ => p
  | _ => false

/-- `Type::sizeof() -> Result<u64, &str>` (byte count). -/
def CType.sizeofB : CType → Except String Nat
  | .bool => .ok 1
  | .float => .ok 4
  | .double => .ok 8
  | .cenum _ => .ok 8
  | .other _ _ _ (some s) => .ok s
  | .other _ _ _ none => .error "cannot take sizeof variable with incomplete type"

/-! ## Tokens carried by expression nodes (`data/lex.rs`) -/

inductive ComparisonToken where
  | less
  | greater
  | equalEqual
  | notEqual
  | lessEqual
  | greaterEqual
deriving DecidableEq, Repr

inductive AssignmentToken where
  | equal
  | plusEqual
  | minusEqual
  | starEqual
  | divideEqual
  | modEqual
  | leftEqual
  | rightEqual
  | andEqual
  | orEqual
  | xorEqual
deriving DecidableEq, Repr

/-! ## Expression trees (`data/expr.rs` shape, as used by `fold.rs`)

`Expr` is a record of `expr`, `ctype`, `constexpr`, `lval`, `location`;
`ExprType` is the tagged variant set that `const_fold` matches on
(the match in `fold.rs` is exhaustive, so this is the full set). -/
mutual
inductive Expr where
  | mk (expr : ExprType) (ctype : CType) (constexpr : Bool) (lval : Bool)
      (location : Location)

inductive ExprType where
  | literal (l : Literal)
  | id (name : Nat)
  | sizeofT (t : CType)
  | negate (e : Expr)
  | logicalNot (e : Expr)
  | bitwiseNot (e : Expr)
  | comma (l r : Expr)
  | noop (e : Expr)
  | deref (e : Expr)
  | add (l r : Expr)
  | sub (l r : Expr)
  | mul (l r : Expr)
  | div (l r : Expr)
  | mod (l r : Expr)
  | xor (l r : Expr)
  | bitwiseAnd (l r : Expr)
  | bitwiseOr (l r : Expr)
  | shift (l r : Expr) (isLeft : Bool)
  | compare (l r : Expr) (op : ComparisonToken)
  | ternary (c t o : Expr)
  | funcCall (f : Expr) (args : List Expr)
  | member (e : Expr) (name : Nat)
  | assign (target value : Expr) (tok : AssignmentToken)
  | postIncrement (e : Expr) (increase : Bool)
  | cast (e : Expr)
  | logicalAnd (l r : Expr)
  | logicalOr (l r : Expr)
  | staticRef (e : Expr)
end

def Expr.expr : Expr → ExprType
  | .mk t _ _ _ _ => t

def Expr.ctype : Expr → CType
  | .mk _ c _ _ _ => c

def Expr.constexpr : Expr → Bool
  | .mk _ _ cx _ _ => cx

def Expr.lval : Expr → Bool
  | .mk _ _ _ lv _ => lv

def Expr.location : Expr → Location
  | .mk _ _ _ _ loc => loc

def ExprType.isLiteral : ExprType → Bool
  | .literal _ => true
  | _ => false

/-! ## Node counting (termination measure for the fold) -/

mutual
def nodesE : Expr → Nat
  | .mk t _ _ _ _ => nodesT t

def nodesT : ExprType → Nat
  | .literal _ => 1
  | .id _ => 1
  | .sizeofT _ => 1
  | .negate e => 1 + nodesE e
  | .logicalNot e => 1 + nodesE e
  | .bitwiseNot e => 1 + nodesE e
  | .comma a b => 1 + nodesE a + nodesE b
  | .noop e => 1 + nodesE e
  | .deref e => 1 + nodesE e
  | .add a b => 1 + nodesE a + nodesE b
  | .sub a b => 1 + nodesE a + nodesE b
  | .mul a b => 1 + nodesE a + nodesE b
  | .div a b => 1 + nodesE a + nodesE b
  | .mod a b => 1 + nodesE a + nodesE b
  | .xor a b => 1 + nodesE a + nodesE b
  | .bitwiseAnd a b => 1 + nodesE a + nodesE b
  | .bitwiseOr a b => 1 + nodesE a + nodesE b
  | .shift a b _ => 1 + nodesE a + nodesE b
  | .compare a b _ => 1 + nodesE a + nodesE b
  | .ternary a b c => 1 + nodesE a + nodesE b + nodesE c
  | .funcCall f args => 1 + nodesE f + nodesL args
  | .member e _ => 1 + nodesE e
  | .assign a b _ => 1 + nodesE a + nodesE b
  | .postIncrement e _ => 1 + nodesE e
  | .cast e => 1 + nodesE e
  | .logicalAnd a b => 1 + nodesE a + nodesE b
  | .logicalOr a b => 1 + nodesE a + nodesE b
  | .staticRef e => 1 + nodesE e

def nodesL : List Expr → Nat
  | [] => 0
  | e :: es => 1 + nodesE e + nodesL es
end

theorem nodesE_expr (e : Expr) : nodesE e = nodesT e.expr := by
  cases e; rfl

theorem nodesT_pos (t : ExprType) : 1 ≤ nodesT t := by
  cases t <;> simp [nodesT] <;> omega

theorem nodesE_pos (e : Expr) : 1 ≤ nodesE e := by
  cases e with
  | mk t c cx lv loc => simpa [nodesE] using nodesT_pos t

/-! ## Rust arithmetic primitives used by `fold.rs`

Each models the exact Rust primitive, including the panic of the
division/remainder primitives on a zero divisor. -/

def i64_overflowing_add (a b : Int) : Except FoldErr (Int × Bool) :=
  .ok (wrapI64 (a + b), decide (wrapI64 (a + b) ≠ a + b))

def i64_overflowing_sub (a b : Int) : Except FoldErr (Int × Bool) :=
  .ok (wrapI64 (a - b), decide (wrapI64 (a - b) ≠ a - b))

def i64_overflowing_mul (a b : Int) : Except FoldErr (Int × Bool) :=
  .ok (wrapI64 (a * b), decide (wrapI64 (a * b) ≠ a * b))

/-- `i64::overflowing_div`: panics on a zero divisor, otherwise
`(self.wrapping_div(rhs), self == i64::MIN && rhs == -1)`; Rust integer
division truncates toward zero (`Int.tdiv`). -/
def i64_overflowing_div (a b : Int) : Except FoldErr (Int × Bool) :=
  if b = 0 then .error (.panicked "attempt to divide by zero")
  else .ok (wrapI64 (a.tdiv b), decide (a = i64min ∧ b = -1))

/-- `i64::overflowing_rem`: panics on a zero divisor, otherwise
`(self.wrapping_rem(rhs), self == i64::MIN && rhs == -1)`; the Rust `%`
takes the sign of the dividend (`Int.tmod`). -/
def i64_overflowing_rem (a b : Int) : Except FoldErr (Int × Bool) :=
  if b = 0 then
    .error (.panicked "attempt to calculate the remainder with a divisor of zero")
  else .ok (wrapI64 (a.tmod b), decide (a = i64min ∧ b = -1))

def u64_wrapping_add (a b : Nat) : Except FoldErr Nat :=
  .ok ((a + b) % 2 ^ 64)

def u64_wrapping_sub (a b : Nat) : Except FoldErr Nat :=
  .ok (wrapU64 ((a : Int) - (b : Int)))

def u64_wrapping_mul (a b : Nat) : Except FoldErr Nat :=
  .ok (a * b % 2 ^ 64)

def u64_wrapping_div (a b : Nat) : Except FoldErr Nat :=
  if b = 0 then .error (.panicked "attempt to divide by zero")
  else .ok (a / b)

def u64_wrapping_rem (a b : Nat) : Except FoldErr Nat :=
  if b = 0 then
    .error (.panicked "attempt to calculate the remainder with a divisor of zero")
  else .ok (a % b)

/-- `i64` bitwise complement: `!i = -i - 1` (exact for every `i64`). -/
def i64_not (i : Int) : Int := -i - 1

def i64_xor (a b : Int) : Int := bitsI64 (Nat.xor (i64bits a) (i64bits b))

def i64_and (a b : Int) : Int := bitsI64 (Nat.land (i64bits a) (i64bits b))

def i64_or (a b : Int) : Int := bitsI64 (Nat.lor (i64bits a) (i64bits b))

/-- `i64::wrapping_shr(rhs as u32)`: the `u64` shift amount is truncated
to `u32`, then masked by 64; arithmetic (sign-propagating) shift right is
floor division by a power of two. -/
def i64_wrapping_shr (i : Int) (shift : Nat) : Int :=
  Int.fdiv i (2 ^ (shift % 2 ^ 32 % 64))

def u64_wrapping_shr (u : Nat) (shift : Nat) : Nat :=
  u / 2 ^ (shift % 2 ^ 32 % 64)

/-! ## Literal algebra (`fold.rs` lines 6-50, 71-95, 388-397) -/

/-- The closure produced by the `fold_int_unary_op!(!)` macro
(bitwise complement across `Int`/`UnsignedInt`/`Char`). -/
def fold_int_unary_not : Literal → Literal
  | .int i => .int (i64_not i)
  | .unsignedInt u => .unsignedInt (wrapU64 (-(u : Int) - 1))
  | .char c => .char (wrapU8 (-(c : Int) - 1))
  | t => t

/-- The literal map of the `Negate` case (`fold.rs` lines 129-135). -/
def negate_literal : Literal → Literal
  | .int i => .int (wrapI64 (-i))
  | .unsignedInt u => .unsignedInt (wrapU64 (0 - (u : Int)))
  | .char c => .char (wrapU8 (0 - (c : Int)))
  | .float f => .float (-f)
  | t => t

/-- The closures produced by the `fold_int_bin_op!` macro (`^`, `&`, `|`):
same-variant integer pairs fold, everything else declines. -/
def fold_int_bin_op (intOp : Int → Int → Int) (natOp : Nat → Nat → Nat) :
    Literal → Literal → CType → Except FoldErr (Option Literal) :=
  fun a b _ctype =>
    match a, b with
    | .int a, .int b => .ok (some (.int (intOp a b)))
    | .unsignedInt a, .unsignedInt b => .ok (some (.unsignedInt (natOp a b)))
    | .char a, .char b => .ok (some (.char (natOp a b)))
    | _, _ => .ok none

/-- `fold_scalar_bin_op` (`fold.rs` lines 28-50): overflow-checked signed
arithmetic, wrapping unsigned arithmetic, native float; every other pair
declines.  `is_positive` of the overflow error is `value.is_negative()`
of the wrapped value. -/
def fold_scalar_bin_op (simple : Rat → Rat → Rat)
    (overflowing : Int → Int → Except FoldErr (Int × Bool))
    (wrapping : Nat → Nat → Except FoldErr Nat) :
    Literal → Literal → CType → Except FoldErr (Option Literal) :=
  fun a b _ctype =>
    match a, b with
    | .int a, .int b =>
      match overflowing a b with
      | .error e => .error e
      | .ok (value, overflowed) =>
        if overflowed then .error (.constOverflow (decide (value < 0)))
        else .ok (some (.int value))
    | .unsignedInt a, .unsignedInt b =>
      match wrapping a b with
      | .error e => .error e
      | .ok v => .ok (some (.unsignedInt v))
    | .float a, .float b => .ok (some (.float (simple a b)))
    | _, _ => .ok none

/-- The `Mod` fold closure (`fold.rs` lines 216-235). -/
def fold_mod_op : Literal → Literal → CType → Except FoldErr (Option Literal) :=
  fun a b _ctype =>
    match a, b with
    | .int a, .int b =>
      match i64_overflowing_rem a b with
      | .error e => .error e
      | .ok (value, overflowed) =>
        if overflowed then .error (.constOverflow (decide (value < 0)))
        else .ok (some (.int value))
    | .unsignedInt a, .unsignedInt b =>
      match u64_wrapping_rem a b with
      | .error e => .error e
      | .ok v => .ok (some (.unsignedInt v))
    | .char _, .char 0 => .error .divideByZero
    | .char a, .char b => .ok (some (.char (a % b)))
    | _, _ => .ok none

/-- The `LogicalAnd` fold closure (`fold.rs` lines 315-319). -/
def fold_logical_and_op : Literal → Literal → CType → Except FoldErr (Option Literal) :=
  fun a b _ctype =>
    match a, b with
    | .int 1, .int 1 => .ok (some (.int 1))
    | .int 0, _ => .ok (some (.int 0))
    | _, .int 0 => .ok (some (.int 0))
    | _, _ => .ok none

/-- The `LogicalOr` fold closure (`fold.rs` lines 325-329). -/
def fold_logical_or_op : Literal → Literal → CType → Except FoldErr (Option Literal) :=
  fun a b _ctype =>
    match a, b with
    | .int 0, .int 0 => .ok (some (.int 0))
    | .int 1, _ => .ok (some (.int 1))
    | _, .int 1 => .ok (some (.int 1))
    | _, _ => .ok none

/-- `Expr::is_zero` (`fold.rs` lines 72-84); note that `Float 0.0`
counts as zero. -/
def Expr.is_zero (e : Expr) : Bool :=
  match e.expr with
  | .literal (.int i) => i == 0
  | .literal (.unsignedInt u) => u == 0
  | .literal (.float f) => f == 0
  | .literal (.char c) => c == 0
  | _ => false

/-- `Literal::non_negative_int` (`fold.rs` lines 389-396). -/
def Literal.non_negative_int : Literal → Except Unit Nat
  | .int i => if 0 ≤ i then .ok i.toNat else .error ()
  | .unsignedInt u => .ok u
  | .char c => .ok c
  | _ => .error ()

/-! ## The cast normalizer (`fold.rs` lines 416-436) -/

/-- Rust `f as i64`: truncate toward zero and saturate. -/
def f64_as_i64 (q : Rat) : Int := min (max (q.num.tdiv (q.den : Int)) i64min) i64max

/-- Rust `f as u64`: truncate toward zero and saturate. -/
def f64_as_u64 (q : Rat) : Nat := (min (max (q.num.tdiv (q.den : Int)) 0) (2 ^ 64 - 1)).toNat

/-- `const_cast` (`fold.rs` lines 416-436), with the source's arm order:
for each source literal the `Bool`, `Double`/`Float`, signed-integral,
unsigned-integral rows come first, then the pointer rows, then decline. -/
def const_cast (token : Literal) (ctype : CType) : Option Literal :=
  match token, ctype with
  | .int i, .bool => some (.int (if i ≠ 0 then 1 else 0))
  | .int i, .double => some (.float (i : Rat))
  | .int i, .float => some (.float (i : Rat))
  | .int i, ty =>
    if ty.is_integral && ty.is_signed then some (.int i)
    else if ty.is_integral then some (.unsignedInt (wrapU64 i))
    else if ty.is_pointer && 0 ≤ i then some (.unsignedInt i.toNat)
    else none
  | .unsignedInt u, .bool => some (.int (if u ≠ 0 then 1 else 0))
  | .unsignedInt u, .double => some (.float (u : Rat))
  | .unsignedInt u, .float => some (.float (u : Rat))
  | .unsignedInt u, ty =>
    if ty.is_integral && ty.is_signed then some (.int (bitsI64 (u % 2 ^ 64)))
    else if ty.is_integral then some (.unsignedInt u)
    else if ty.is_pointer then some (.unsignedInt u)
    else none
  | .float f, .bool => some (.int (if f ≠ 0 then 1 else 0))
  | .float f, .double => some (.float f)
  | .float f, .float => some (.float f)
  | .float f, ty =>
    if ty.is_integral && ty.is_signed then some (.int (f64_as_i64 f))
    else if ty.is_integral then some (.unsignedInt (f64_as_u64 f))
    else none
  | .char c, ty => if ty.is_pointer then some (.unsignedInt c) else none
  | _, _ => none

/-- `lnot_fold` (`fold.rs` lines 438-446), applied to the already-folded
operand; note `UnsignedInt` literals fall through to the rebuild arm. -/
def lnot_fold (e : Expr) : ExprType :=
  match e.expr with
  | .literal (.int i) => .literal (.int (if i = 0 then 1 else 0))
  | .literal (.float f) => .literal (.int (if f = 0 then 1 else 0))
  | .literal (.char c) => .literal (.int (if c = 0 then 1 else 0))
  | .literal (.str _) => .literal (.int 0)
  | _ => .logicalNot e

/-! ## First-order stand-ins for the constructor arguments

The source passes `ExprType` constructors (`ExprType::Add`, …) as the
`constructor` argument of `literal_bin_op` / `map_literal`; here they are
first-order tags so the node-count bounds can be stated once. -/

inductive BinTag where
  | add
  | sub
  | mul
  | div
  | mod
  | xor
  | bitwiseAnd
  | bitwiseOr
  | logicalAnd
  | logicalOr
deriving DecidableEq, Repr

def BinTag.apply : BinTag → Expr → Expr → ExprType
  | .add, a, b => .add a b
  | .sub, a, b => .sub a b
  | .mul, a, b => .mul a b
  | .div, a, b => .div a b
  | .mod, a, b => .mod a b
  | .xor, a, b => .xor a b
  | .bitwiseAnd, a, b => .bitwiseAnd a b
  | .bitwiseOr, a, b => .bitwiseOr a b
  | .logicalAnd, a, b => .logicalAnd a b
  | .logicalOr, a, b => .logicalOr a b

theorem binTag_nodes_apply (c : BinTag) (a b : Expr) :
    nodesT (c.apply a b) = 1 + nodesE a + nodesE b := by
  cases c <;> simp [BinTag.apply, nodesT]

inductive UnTag where
  | negate
  | bitwiseNot
deriving DecidableEq, Repr

def UnTag.apply : UnTag → Expr → ExprType
  | .negate, e => .negate e
  | .bitwiseNot, e => .bitwiseNot e

theorem unTag_nodes_apply (c : UnTag) (e : Expr) :
    nodesT (c.apply e) = 1 + nodesE e := by
  cases c <;> simp [UnTag.apply, nodesT]

/-! ## Per-variant pure steps on already-folded children

Each of these is the body of the corresponding source helper after its
initial `const_fold` calls on the operands; the recursive fold below
performs those calls at the call sites (in the source's order), so the
composite behaviour is identical. -/

/-- The match of `Expr::literal_bin_op` on the two folded operands
(`fold.rs` lines 363-374): both literals are handed to `fold_func`
together with the folded left operand's `ctype`; `Ok(Some)` folds,
`Ok(None)` declines and rebuilds, `Err` becomes a located error.  The
return type carries the node-count bound. -/
def literal_bin_op_folded (left right : Expr) (location : Location)
    (fold_func : Literal → Literal → CType → Except FoldErr (Option Literal))
    (constructor : BinTag) :
    Except CompileError { t : ExprType // nodesT t ≤ 1 + nodesE left + nodesE right } :=
  match left.expr, right.expr with
  | .literal lt, .literal rt =>
    match fold_func lt rt left.ctype with
    | .error err => .error ⟨err, location⟩
    | .ok (some tok) => .ok ⟨.literal tok, by simp [nodesT]; omega⟩
    | .ok none => .ok ⟨constructor.apply left right, by simp [binTag_nodes_apply]⟩
  | _, _ => .ok ⟨constructor.apply left right, by simp [binTag_nodes_apply]⟩

/-- `Expr::map_literal` (`fold.rs` lines 376-385) on the folded operand. -/
def map_literal (e : Expr) (literal_func : Literal → Literal)
    (constructor : UnTag) : ExprType :=
  match e.expr with
  | .literal tok => .literal (literal_func tok)
  | _ => constructor.apply e

theorem map_literal_bound (e : Expr) (literal_func : Literal → Literal)
    (constructor : UnTag) :
    nodesT (map_literal e literal_func constructor) ≤ 1 + nodesE e := by
  unfold map_literal
  split
  · simp [nodesT]
  · simp [unTag_nodes_apply]

theorem lnot_fold_bound (e : Expr) : nodesT (lnot_fold e) ≤ 1 + nodesE e := by
  unfold lnot_fold
  split <;> simp [nodesT]

/-- The boolean comparison `a ⊕ b` for each `ComparisonToken`. -/
def cmpOp (op : ComparisonToken) {α : Type} [LinearOrder α] [DecidableEq α]
    (a b : α) : Bool :=
  match op with
  | .less => decide (a < b)
  | .greater => decide (a > b)
  | .equalEqual => a == b
  | .notEqual => !(a == b)
  | .lessEqual => decide (a ≤ b)
  | .greaterEqual => decide (a ≥ b)

def boolToI64 (b : Bool) : Int := if b then 1 else 0

/-- The match of the `fold_compare_op!` macro on the two folded operands
(`fold.rs` lines 52-69): same-variant literal pairs reduce to the
comparison as an `Int` 0/1, everything else rebuilds `Compare`. -/
def fold_compare_folded (left right : Expr) (op : ComparisonToken) : ExprType :=
  match left.expr, right.expr with
  | .literal (.int a), .literal (.int b) => .literal (.int (boolToI64 (cmpOp op a b)))
  | .literal (.unsignedInt a), .literal (.unsignedInt b) =>
    .literal (.int (boolToI64 (cmpOp op a b)))
  | .literal (.float a), .literal (.float b) =>
    .literal (.int (boolToI64 (cmpOp op a b)))
  | .literal (.char a), .literal (.char b) =>
    .literal (.int (boolToI64 (cmpOp op a b)))
  | _, _ => .compare left right op

theorem fold_compare_folded_bound (left right : Expr) (op : ComparisonToken) :
    nodesT (fold_compare_folded left right op) ≤ 1 + nodesE left + nodesE right := by
  unfold fold_compare_folded
  split <;> simp [nodesT] <;> omega

/-- The literal test of `cast` (`fold.rs` lines 399-410) on the folded
operand: a literal goes through `const_cast` and keeps the `Cast` node
when the normalizer declines. -/
def cast_folded (e : Expr) (ctype : CType) : ExprType :=
  match e.expr with
  | .literal tok =>
    match const_cast tok ctype with
    | some tok2 => .literal tok2
    | none => .cast e
  | _ => .cast e

theorem cast_folded_bound (e : Expr) (ctype : CType) :
    nodesT (cast_folded e ctype) ≤ 1 + nodesE e := by
  unfold cast_folded
  split
  · split <;> simp [nodesT]
  · simp [nodesT]

/-- The match of `shift_left` on the folded left operand
(`fold.rs` lines 521-543).  Note the source rebuilds the node with
`false` as the `is_left` flag (line 541). -/
def shift_left_apply (l : Expr) (token : Literal) (shiftAmt : Nat)
    (location : Location) (r : Expr) :
    Except CompileError { t : ExprType // nodesT t ≤ 2 + nodesE l } :=
  match l.expr with
  | .literal (.int i) =>
    if shiftAmt % 2 ^ 32 ≥ 64 then
      .error ⟨.semanticMsg "overflow in shift left during constant folding", location⟩
    else .ok ⟨.literal (.int (wrapI64 (i * 2 ^ (shiftAmt % 2 ^ 32 % 64)))), by
      simp [nodesT]; omega⟩
  | .literal (.unsignedInt u) =>
    .ok ⟨.literal (.unsignedInt (wrapU64 ((u : Int) * 2 ^ (shiftAmt % 2 ^ 32 % 64)))), by
      simp [nodesT]; omega⟩
  | _ =>
    .ok ⟨.shift l (.mk (.literal token) r.ctype r.constexpr r.lval r.location) false, by
      simp [nodesT, nodesE]; omega⟩

/-! ## The fold engine (`fold.rs` lines 108-547)

`const_fold_aux` carries, in its return type, the fact that folding never
increases the node count; this is what makes the source's *double* fold
of the right operand of `Div`/`Mod` (once in the `Div`/`Mod` arm, once
again inside `literal_bin_op`) well-founded.  `const_fold` below strips
the bound and is the function the theorems are about. -/

mutual

/-- `Expr::const_fold` (`fold.rs` lines 108-345): fold the variant, then
rebuild the node with `constexpr` set exactly when the folded variant is
a literal, keeping `ctype`, `lval` and `location` (lines 334-344). -/
def const_fold_aux (e : Expr) :
    Except CompileError { r : Expr // nodesE r ≤ nodesE e } :=
  match fold_inner e with
  | .error err => .error err
  | .ok ⟨t, ht⟩ =>
    .ok ⟨.mk t e.ctype t.isLiteral e.lval e.location, by simpa [nodesE] using ht⟩
termination_by 4 * nodesE e + 2
decreasing_by
all_goals (try simp [nodesE, nodesT, nodesL])
all_goals omega

/-- The big per-variant match of `const_fold` (`fold.rs` lines 111-333). -/
def fold_inner (e : Expr) :
    Except CompileError { t : ExprType // nodesT t ≤ nodesE e } :=
  match e with
  | .mk et ct _cx _lv loc =>
    match et with
    | .literal l => .ok ⟨.literal l, by simp [nodesE, nodesT]⟩
    | .id name =>
      match ct with
      | .cenum members =>
        match members.find? (fun m => m.1 == name) with
        | some mem => .ok ⟨.literal (.int mem.2), by simp [nodesE, nodesT]⟩
        | none => .ok ⟨.id name, by simp [nodesE, nodesT]⟩
      | _ => .ok ⟨.id name, by simp [nodesE, nodesT]⟩
    | .sizeofT ty =>
      match ty.sizeofB with
      | .error msg => .error ⟨.semanticMsg msg, loc⟩
      | .ok s => .ok ⟨.literal (.unsignedInt s), by simp [nodesE, nodesT]⟩
    | .negate inner =>
      match const_fold_aux inner with
      | .error err => .error err
      | .ok ⟨i2, hi⟩ =>
        .ok ⟨map_literal i2 negate_literal .negate, by
          have := map_literal_bound i2 negate_literal .negate
          simp [nodesE, nodesT]
          omega⟩
    | .logicalNot inner =>
      match const_fold_aux inner with
      | .error err => .error err
      | .ok ⟨i2, hi⟩ =>
        .ok ⟨lnot_fold i2, by
          have := lnot_fold_bound i2
          simp [nodesE, nodesT]
          omega⟩
    | .bitwiseNot inner =>
      match const_fold_aux inner with
      | .error err => .error err
      | .ok ⟨i2, hi⟩ =>
        .ok ⟨map_literal i2 fold_int_unary_not .bitwiseNot, by
          have := map_literal_bound i2 fold_int_unary_not .bitwiseNot
          simp [nodesE, nodesT]
          omega⟩
    | .comma l r =>
      match const_fold_aux l with
      | .error err => .error err
      | .ok ⟨l2, hl⟩ =>
        match const_fold_aux r with
        | .error err => .error err
        | .ok ⟨r2, hr⟩ =>
          if l2.constexpr then
            .ok ⟨r2.expr, by rw [← nodesE_expr]; simp [nodesE, nodesT]; omega⟩
          else .ok ⟨.comma l2 r2, by simp [nodesE, nodesT]; omega⟩
    | .noop inner =>
      match const_fold_aux inner with
      | .error err => .error err
      | .ok ⟨i2, hi⟩ => .ok ⟨.noop i2, by simp [nodesE, nodesT]; omega⟩
    | .deref inner =>
      match const_fold_aux inner with
      | .error err => .error err
      | .ok ⟨i2, hi⟩ =>
        match i2.expr with
        | .literal (.int 0) =>
          .error ⟨.semanticMsg "cannot dereference NULL pointer", i2.location⟩
        | _ => .ok ⟨.deref i2, by simp [nodesE, nodesT]; omega⟩
    | .add l r =>
      match literal_bin_op l r loc
          (fold_scalar_bin_op (· + ·) i64_overflowing_add u64_wrapping_add) .add with
      | .error err => .error err
      | .ok ⟨t, ht⟩ => .ok ⟨t, by simp [nodesE, nodesT]; omega⟩
    | .sub l r =>
      match literal_bin_op l r loc
          (fold_scalar_bin_op (· - ·) i64_overflowing_sub u64_wrapping_sub) .sub with
      | .error err => .error err
      | .ok ⟨t, ht⟩ => .ok ⟨t, by simp [nodesE, nodesT]; omega⟩
    | .mul l r =>
      match literal_bin_op l r loc
          (fold_scalar_bin_op (· * ·) i64_overflowing_mul u64_wrapping_mul) .mul with
      | .error err => .error err
      | .ok ⟨t, ht⟩ => .ok ⟨t, by simp [nodesE, nodesT]; omega⟩
    | .div l r =>
      match const_fold_aux r with
      | .error err => .error err
      | .ok ⟨r1, hr1⟩ =>
        if r1.is_zero then .error ⟨.divideByZero, loc⟩
        else
          match literal_bin_op l r1 loc
              (fold_scalar_bin_op (· / ·) i64_overflowing_div u64_wrapping_div) .div with
          | .error err => .error err
          | .ok ⟨t, ht⟩ => .ok ⟨t, by simp [nodesE, nodesT]; omega⟩
    | .mod l r =>
      match const_fold_aux r with
      | .error err => .error err
      | .ok ⟨r1, hr1⟩ =>
        if r1.is_zero then .error ⟨.divideByZero, loc⟩
        else
          match literal_bin_op l r1 loc fold_mod_op .mod with
          | .error err => .error err
          | .ok ⟨t, ht⟩ => .ok ⟨t, by simp [nodesE, nodesT]; omega⟩
    | .xor l r =>
      match literal_bin_op l r loc (fold_int_bin_op i64_xor Nat.xor) .xor with
      | .error err => .error err
      | .ok ⟨t, ht⟩ => .ok ⟨t, by simp [nodesE, nodesT]; omega⟩
    | .bitwiseAnd l r =>
      match literal_bin_op l r loc (fold_int_bin_op i64_and Nat.land) .bitwiseAnd with
      | .error err => .error err
      | .ok ⟨t, ht⟩ => .ok ⟨t, by simp [nodesE, nodesT]; omega⟩
    | .bitwiseOr l r =>
      match literal_bin_op l r loc (fold_int_bin_op i64_or Nat.lor) .bitwiseOr with
      | .error err => .error err
      | .ok ⟨t, ht⟩ => .ok ⟨t, by simp [nodesE, nodesT]; omega⟩
    | .shift l r true =>
      match shift_left l r ct loc with
      | .error err => .error err
      | .ok ⟨t, ht⟩ => .ok ⟨t, by simp [nodesE, nodesT]; omega⟩
    | .shift l r false =>
      match shift_right l r ct loc with
      | .error err => .error err
      | .ok ⟨t, ht⟩ => .ok ⟨t, by simp [nodesE, nodesT]; omega⟩
    | .compare l r op =>
      match const_fold_aux l with
      | .error err => .error err
      | .ok ⟨l2, hl⟩ =>
        match const_fold_aux r with
        | .error err => .error err
        | .ok ⟨r2, hr⟩ =>
          .ok ⟨fold_compare_folded l2 r2 op, by
            have := fold_compare_folded_bound l2 r2 op
            simp [nodesE, nodesT]
            omega⟩
    | .ternary c t o =>
      match const_fold_aux c with
      | .error err => .error err
      | .ok ⟨c2, hc⟩ =>
        match const_fold_aux t with
        | .error err => .error err
        | .ok ⟨t2, ht2⟩ =>
          match const_fold_aux o with
          | .error err => .error err
          | .ok ⟨o2, ho⟩ =>
            match c2.expr with
            | .literal (.int 0) =>
              .ok ⟨o2.expr, by rw [← nodesE_expr]; simp [nodesE, nodesT]; omega⟩
            | .literal (.int _) =>
              .ok ⟨t2.expr, by rw [← nodesE_expr]; simp [nodesE, nodesT]; omega⟩
            | _ => .ok ⟨.ternary c2 t2 o2, by simp [nodesE, nodesT]; omega⟩
    | .funcCall f args =>
      match const_fold_aux f with
      | .error err => .error err
      | .ok ⟨f2, hf⟩ =>
        match const_fold_list args with
        | .error err => .error err
        | .ok ⟨args2, ha⟩ =>
          .ok ⟨.funcCall f2 args2, by simp [nodesE, nodesT]; omega⟩
    | .member inner name =>
      match const_fold_aux inner with
      | .error err => .error err
      | .ok ⟨i2, hi⟩ => .ok ⟨.member i2 name, by simp [nodesE, nodesT]; omega⟩
    | .assign target value tok =>
      match const_fold_aux target with
      | .error err => .error err
      | .ok ⟨t2, ht2⟩ =>
        match const_fold_aux value with
        | .error err => .error err
        | .ok ⟨v2, hv⟩ =>
          .ok ⟨.assign t2 v2 tok, by simp [nodesE, nodesT]; omega⟩
    | .postIncrement inner inc =>
      match const_fold_aux inner with
      | .error err => .error err
      | .ok ⟨i2, hi⟩ =>
        .ok ⟨.postIncrement i2 inc, by simp [nodesE, nodesT]; omega⟩
    | .cast inner =>
      match const_fold_aux inner with
      | .error err => .error err
      | .ok ⟨i2, hi⟩ =>
        .ok ⟨cast_folded i2 ct, by
          have := cast_folded_bound i2 ct
          simp [nodesE, nodesT]
          omega⟩
    | .logicalAnd l r =>
      match literal_bin_op l r loc fold_logical_and_op .logicalAnd with
      | .error err => .error err
      | .ok ⟨t, ht⟩ => .ok ⟨t, by simp [nodesE, nodesT]; omega⟩
    | .logicalOr l r =>
      match literal_bin_op l r loc fold_logical_or_op .logicalOr with
      | .error err => .error err
      | .ok ⟨t, ht⟩ => .ok ⟨t, by simp [nodesE, nodesT]; omega⟩
    | .staticRef inner =>
      match const_fold_aux inner with
      | .error err => .error err
      | .ok ⟨i2, hi⟩ => .ok ⟨.staticRef i2, by simp [nodesE, nodesT]; omega⟩
termination_by 4 * nodesE e + 1
decreasing_by
all_goals (try simp [nodesE, nodesT, nodesL])
all_goals omega

/-- `Expr::literal_bin_op` (`fold.rs` lines 351-375): fold both operands
(this is where the already-folded right operand of `Div`/`Mod` is folded
a second time), then reduce, decline, or fail. -/
def literal_bin_op (self other : Expr) (location : Location)
    (fold_func : Literal → Literal → CType → Except FoldErr (Option Literal))
    (constructor : BinTag) :
    Except CompileError { t : ExprType // nodesT t ≤ 1 + nodesE self + nodesE other } :=
  match const_fold_aux self with
  | .error err => .error err
  | .ok ⟨l2, hl⟩ =>
    match const_fold_aux other with
    | .error err => .error err
    | .ok ⟨r2, hr⟩ =>
      match literal_bin_op_folded l2 r2 location fold_func constructor with
      | .error err => .error err
      | .ok ⟨t, ht⟩ => .ok ⟨t, by omega⟩
termination_by 4 * (nodesE self + nodesE other) + 3
decreasing_by
all_goals (try simp [nodesE, nodesT, nodesL])
all_goals omega

/-- `shift_left` (`fold.rs` lines 493-547). -/
def shift_left (left right : Expr) (ctype : CType) (location : Location) :
    Except CompileError { t : ExprType // nodesT t ≤ 1 + nodesE left + nodesE right } :=
  match const_fold_aux left with
  | .error err => .error err
  | .ok ⟨l, hl⟩ =>
    match const_fold_aux right with
    | .error err => .error err
    | .ok ⟨r, hr⟩ =>
      match r.expr with
      | .literal token =>
        match token.non_negative_int with
        | .error _ =>
          .error ⟨.semanticMsg "cannot shift left by a negative amount", location⟩
        | .ok shiftAmt =>
          if l.ctype.is_signed then
            match l.ctype.sizeofB with
            | .error msg => .error ⟨.semanticMsg msg, location⟩
            | .ok sizeB =>
              if shiftAmt ≥ 8 * sizeB then
                .error ⟨.shiftTooLarge (8 * sizeB) shiftAmt, location⟩
              else
                match shift_left_apply l token shiftAmt location r with
                | .error err => .error err
                | .ok ⟨t, ht⟩ =>
                  .ok ⟨t, by have := nodesE_pos right; omega⟩
          else
            match shift_left_apply l token shiftAmt location r with
            | .error err => .error err
            | .ok ⟨t, ht⟩ =>
              .ok ⟨t, by have := nodesE_pos right; omega⟩
      | _ => .ok ⟨.shift l r false, by simp [nodesT]; omega⟩
termination_by 4 * (nodesE left + nodesE right) + 3
decreasing_by
all_goals (try simp [nodesE, nodesT, nodesL])
all_goals omega

/-- `shift_right` (`fold.rs` lines 448-491).  Note the `shift >= sizeof`
comparison is against the *byte* count returned by `sizeof`, exactly as
in the source. -/
def shift_right (left right : Expr) (ctype : CType) (location : Location) :
    Except CompileError { t : ExprType // nodesT t ≤ 1 + nodesE left + nodesE right } :=
  match const_fold_aux left with
  | .error err => .error err
  | .ok ⟨l, hl⟩ =>
    match const_fold_aux right with
    | .error err => .error err
    | .ok ⟨r, hr⟩ =>
      match r.expr with
      | .literal token =>
        match token.non_negative_int with
        | .error _ =>
          .error ⟨.semanticMsg "cannot shift left by a negative amount", location⟩
        | .ok shiftAmt =>
          match ctype.sizeofB with
          | .error msg => .error ⟨.semanticMsg msg, location⟩
          | .ok sizeB =>
            if shiftAmt ≥ sizeB then
              .ok ⟨.literal (if ctype.is_signed then .int 0 else .unsignedInt 0), by
                simp [nodesT]; omega⟩
            else
              match l.expr with
              | .literal (.int i) =>
                .ok ⟨.literal (.int (i64_wrapping_shr i shiftAmt)), by
                  simp [nodesT]; omega⟩
              | .literal (.unsignedInt u) =>
                .ok ⟨.literal (.unsignedInt (u64_wrapping_shr u shiftAmt)), by
                  simp [nodesT]; omega⟩
              | .literal _ =>
                .error ⟨.panicked
                  "internal error: entered unreachable code: only ints and unsigned ints can be right shifted",
                  location⟩
              | _ =>
                .ok ⟨.shift l (.mk (.literal token) r.ctype r.constexpr r.lval r.location)
                    false, by
                  have := nodesE_pos right
                  simp [nodesT, nodesE]
                  omega⟩
      | _ => .ok ⟨.shift l r false, by simp [nodesT]; omega⟩
termination_by 4 * (nodesE left + nodesE right) + 3
decreasing_by
all_goals (try simp [nodesE, nodesT, nodesL])
all_goals omega

/-- Folding of the `FuncCall` argument list (`fold.rs` lines 287-290). -/
def const_fold_list (es : List Expr) :
    Except CompileError { rs : List Expr // nodesL rs ≤ nodesL es } :=
  match es with
  | [] => .ok ⟨[], le_refl _⟩
  | e :: rest =>
    match const_fold_aux e with
    | .error err => .error err
    | .ok ⟨e2, he⟩ =>
      match const_fold_list rest with
      | .error err => .error err
      | .ok ⟨rest2, hrest⟩ => .ok ⟨e2 :: rest2, by simp [nodesL]; omega⟩
termination_by 4 * nodesL es + 3
decreasing_by
all_goals (try simp [nodesE, nodesT, nodesL])
all_goals omega

end

/-- `Expr::const_fold` with the node-count bound stripped: the function
the claims are stated about. -/
def const_fold (e : Expr) : Except CompileError Expr :=
  match const_fold_aux e with
  | .error err => .error err
  | .ok r => .ok r.val

/-! ## Structural lemmas about the fold -/

theorem const_fold_aux_of_ok {e e' : Expr} (h : const_fold e = .ok e') :
    ∃ hb : nodesE e' ≤ nodesE e, const_fold_aux e = .ok ⟨e', hb⟩ := by
  unfold const_fold at h
  cases haux : const_fold_aux e with
  | error err => rw [haux] at h; exact absurd h (by simp)
  | ok r =>
    rw [haux] at h
    obtain ⟨v, hv⟩ := r
    simp only [Except.ok.injEq] at h
    subst h
    exact ⟨hv, rfl⟩

theorem const_fold_of_aux {e : Expr} {r : Expr} {hb : nodesE r ≤ nodesE e}
    (h : const_fold_aux e = .ok ⟨r, hb⟩) : const_fold e = .ok r := by
  unfold const_fold
  rw [h]

/-- Every successful fold goes through the final rebuild of
`fold.rs` lines 334-344. -/
theorem const_fold_structure {e e' : Expr} (h : const_fold e = .ok e') :
    ∃ t, (∃ ht : nodesT t ≤ nodesE e, fold_inner e = .ok ⟨t, ht⟩) ∧
      e' = .mk t e.ctype t.isLiteral e.lval e.location := by
  obtain ⟨hb, haux⟩ := const_fold_aux_of_ok h
  unfold const_fold_aux at haux
  cases hfi : fold_inner e with
  | error err => rw [hfi] at haux; exact absurd haux (by simp)
  | ok t =>
    rw [hfi] at haux
    obtain ⟨tv, htv⟩ := t
    simp only [Except.ok.injEq, Subtype.mk.injEq] at haux
    exact ⟨tv, ⟨htv, rfl⟩, haux.symm⟩

/-- The rebuilt node's `constexpr` flag is exactly the literal test on
its folded variant. -/
theorem const_fold_constexpr {e e' : Expr} (h : const_fold e = .ok e') :
    e'.constexpr = e'.expr.isLiteral := by
  obtain ⟨t, _, rfl⟩ := const_fold_structure h
  rfl

theorem isLiteral_iff {t : ExprType} : t.isLiteral = true ↔ ∃ l, t = .literal l := by
  cases t <;> simp [ExprType.isLiteral]

/-- Folding a literal node: the variant is returned unchanged and the
`constexpr` flag is rewritten to `true`. -/
theorem const_fold_aux_literal (l : Literal) (ct : CType) (cx lv : Bool)
    (loc : Location) :
    const_fold_aux (.mk (.literal l) ct cx lv loc) =
      .ok ⟨.mk (.literal l) ct true lv loc, by simp [nodesE, nodesT]⟩ := by
  simp [const_fold_aux, fold_inner, ExprType.isLiteral, Expr.ctype, Expr.lval,
    Expr.location]

theorem const_fold_literal (l : Literal) (ct : CType) (cx lv : Bool)
    (loc : Location) :
    const_fold (.mk (.literal l) ct cx lv loc) =
      .ok (.mk (.literal l) ct true lv loc) := by
  unfold const_fold
  rw [const_fold_aux_literal]

/-- An already-folded node whose variant is a literal refolds to itself
(its `constexpr` flag is already `true`). -/
theorem const_fold_aux_literal_self {e : Expr} {l : Literal}
    (hl : e.expr = .literal l) (hcx : e.constexpr = true) :
    const_fold_aux e = .ok ⟨e, le_refl _⟩ := by
  obtain ⟨t, ct, cx, lv, loc⟩ := e
  simp only [Expr.expr] at hl
  simp only [Expr.constexpr] at hcx
  subst hl
  subst hcx
  rw [const_fold_aux_literal]

theorem literal_bin_op_folded_nonlit_left {left right : Expr} {location : Location}
    {fold_func : Literal → Literal → CType → Except FoldErr (Option Literal)}
    {constructor : BinTag} (h : left.expr.isLiteral = false) :
    literal_bin_op_folded left right location fold_func constructor =
      .ok ⟨constructor.apply left right, by simp [binTag_nodes_apply]⟩ := by
  unfold literal_bin_op_folded
  cases hle : left.expr <;> rw [hle] at h <;>
    simp [ExprType.isLiteral] at h ⊢

/-! ## Concrete fixtures used by counterexamples and witnesses -/

/-- A sample location. -/
def loc0 : Location := ⟨0, 0, 0⟩

def locA : Location := ⟨1, 2, 0⟩

def locB : Location := ⟨3, 4, 0⟩

/-- An 8-byte signed integral type (C `long` on the x64 target). -/
def ctLong : CType := .other true true false (some 8)

/-- A 1-byte signed integral type (signed `char`). -/
def ctSChar : CType := .other true true false (some 1)

/-- A literal leaf node of type `long`. -/
def litE (l : Literal) : Expr := .mk (.literal l) ctLong false false locA

/-- A non-literal leaf: an identifier of a non-enumeration type, which
`const_fold` leaves as is. -/
def xId : Expr := .mk (.id 0) ctLong false false locA

theorem const_fold_xId : const_fold xId = .ok xId := by
  simp [const_fold, const_fold_aux, fold_inner, xId, ExprType.isLiteral, Expr.ctype,
    Expr.lval, Expr.location, ctLong]

/-! ## Claim C6 -/

/-- **C6** (confirmed): for every expression on which `const_fold`
succeeds, the returned node's `constexpr` flag is `true` iff its variant
is a `Literal`; the flag is rewritten by the folder regardless of its
input value (the result does not depend on the input flag: it is exactly
the literal test on the folded variant). -/
theorem claim_c6_constexpr_iff_literal {e e' : Expr}
    (h : const_fold e = .ok e') :
    e'.constexpr = true ↔ ∃ l, e'.expr = .literal l := by
  rw [const_fold_constexpr h]
  exact isLiteral_iff

theorem claim_c6_witness :
    ((Expr.mk (.literal (.int 3)) ctLong true false locA).constexpr = true ↔
      ∃ l, (Expr.mk (.literal (.int 3)) ctLong true false locA).expr = .literal l) :=
  claim_c6_constexpr_iff_literal (e := .mk (.literal (.int 3)) ctLong false false locA)
    (const_fold_literal (.int 3) ctLong false false locA)

/-! ## Claim C10 -/

/-- **C10** (confirmed): a `Ternary` selects a branch only when its
condition folds to an `Int`-variant literal; a condition folding to a
literal of any other variant (even an unambiguous zero such as
`UnsignedInt 0` or `Char 0`) rebuilds the `Ternary` with the three
folded children. -/
theorem claim_c10_ternary_non_int_condition {c t o c' t' o' : Expr}
    {lit : Literal} {ct : CType} {cx lv : Bool} {loc : Location}
    (hc : const_fold c = .ok c') (hlit : c'.expr = .literal lit)
    (hnotint : ∀ i : Int, lit ≠ .int i)
    (ht : const_fold t = .ok t') (ho : const_fold o = .ok o') :
    const_fold (.mk (.ternary c t o) ct cx lv loc) =
      .ok (.mk (.ternary c' t' o') ct false lv loc) := by
  obtain ⟨hbc, hac⟩ := const_fold_aux_of_ok hc
  obtain ⟨hbt, hat⟩ := const_fold_aux_of_ok ht
  obtain ⟨hbo, hao⟩ := const_fold_aux_of_ok ho
  cases lit with
  | int i => exact absurd rfl (hnotint i)
  | unsignedInt u =>
    simp [const_fold, const_fold_aux, fold_inner, hac, hat, hao, hlit,
      ExprType.isLiteral, Expr.ctype, Expr.lval, Expr.location]
  | float f =>
    simp [const_fold, const_fold_aux, fold_inner, hac, hat, hao, hlit,
      ExprType.isLiteral, Expr.ctype, Expr.lval, Expr.location]
  | str s =>
    simp [const_fold, const_fold_aux, fold_inner, hac, hat, hao, hlit,
      ExprType.isLiteral, Expr.ctype, Expr.lval, Expr.location]
  | char ch =>
    simp [const_fold, const_fold_aux, fold_inner, hac, hat, hao, hlit,
      ExprType.isLiteral, Expr.ctype, Expr.lval, Expr.location]

theorem claim_c10_witness :
    const_fold (.mk (.ternary (litE (.unsignedInt 0)) (litE (.int 7)) (litE (.int 9)))
        ctLong false false loc0) =
      .ok (.mk (.ternary (.mk (.literal (.unsignedInt 0)) ctLong true false locA)
        (.mk (.literal (.int 7)) ctLong true false locA)
        (.mk (.literal (.int 9)) ctLong true false locA)) ctLong false false loc0) :=
  claim_c10_ternary_non_int_condition
    (const_fold_literal (.unsignedInt 0) ctLong false false locA)
    rfl (fun i => by simp)
    (const_fold_literal (.int 7) ctLong false false locA)
    (const_fold_literal (.int 9) ctLong false false locA)

/-! ## Claim C8 -/

/-- **C8** (counterexample): the claim says `const_cast` returns a
result for *every* numeric literal cast to `Bool`, including `Char`; but
a `Char` literal only matches the pointer row of `const_cast`, and
`Bool` is not a pointer type, so the cast of `Char 1` to `Bool`
declines. -/
theorem claim_c8_counterexample : const_cast (.char 1) .bool = none := rfl

/-- **C8** (amended): for `Int`, `UnsignedInt` and `Float` literals cast
to `Bool`, `const_cast` returns `Int 1` when the value is non-zero and
`Int 0` when it is zero; a `Char` literal cast to `Bool` declines
(returns `none`). -/
theorem claim_c8_amended :
    (∀ i : Int, const_cast (.int i) .bool = some (.int (if i = 0 then 0 else 1)))
    ∧ (∀ u : Nat, const_cast (.unsignedInt u) .bool = some (.int (if u = 0 then 0 else 1)))
    ∧ (∀ f : Rat, const_cast (.float f) .bool = some (.int (if f = 0 then 0 else 1)))
    ∧ (∀ c : Nat, const_cast (.char c) .bool = none) := by
  refine ⟨fun i => ?_, fun u => ?_, fun f => ?_, fun c => rfl⟩
  · by_cases h : i = 0 <;> simp [const_cast, h]
  · by_cases h : u = 0 <;> simp [const_cast, h]
  · by_cases h : f = 0 <;> simp [const_cast, h]

/-! ## Claim C9 -/

/-- **C9** (counterexample): the claim says a `Sub` whose operands fold
to `Char` literals folds to a `Char` literal (with a signed/unsigned
distinction); but `fold_scalar_bin_op` has no `Char` arm (`fold.rs`
lines 34-49 match only `Int`/`Int`, `UnsignedInt`/`UnsignedInt`,
`Float`/`Float`), so the pair declines and the `Sub` node is rebuilt. -/
theorem claim_c9_counterexample :
    const_fold (.mk (.sub (.mk (.literal (.char 5)) ctSChar false false locA)
        (.mk (.literal (.char 3)) ctSChar false false locB)) ctSChar false false loc0) =
      .ok (.mk (.sub (.mk (.literal (.char 5)) ctSChar true false locA)
        (.mk (.literal (.char 3)) ctSChar true false locB)) ctSChar false false loc0) := by
  simp [const_fold, const_fold_aux, fold_inner, literal_bin_op, literal_bin_op_folded,
    fold_scalar_bin_op, BinTag.apply, ExprType.isLiteral, Expr.ctype, Expr.lval,
    Expr.location, Expr.expr]

/-- **C9** (amended): when both operands of a `Sub` fold to `Char`
literals the pair is declined — whatever the signedness of the type —
and the `Sub` node is rebuilt with the two folded operands; no `Char`
subtraction is performed. -/
theorem claim_c9_amended (a b : Nat) (ct ct1 ct2 : CType) (cx cx1 cx2 lv lv1 lv2 : Bool)
    (loc loc1 loc2 : Location) :
    const_fold (.mk (.sub (.mk (.literal (.char a)) ct1 cx1 lv1 loc1)
        (.mk (.literal (.char b)) ct2 cx2 lv2 loc2)) ct cx lv loc) =
      .ok (.mk (.sub (.mk (.literal (.char a)) ct1 true lv1 loc1)
        (.mk (.literal (.char b)) ct2 true lv2 loc2)) ct false lv loc) := by
  simp [const_fold, const_fold_aux, fold_inner, literal_bin_op, literal_bin_op_folded,
    fold_scalar_bin_op, BinTag.apply, ExprType.isLiteral, Expr.ctype, Expr.lval,
    Expr.location, Expr.expr]

/-! ## Claim C5 -/

/-- **C5** (counterexample): the claim says float division by zero is
*not* diagnosed; but `Expr::is_zero` is true for `Float 0.0` and the
`Div` arm raises `DivideByZero` whenever the folded right operand
`is_zero`, so `1 / 0.0` errors. -/
theorem claim_c5_counterexample :
    const_fold (.mk (.div (litE (.int 1)) (.mk (.literal (.float 0)) (.double) false
        false locB)) ctLong false false loc0) =
      .error ⟨.divideByZero, loc0⟩ := by
  simp [const_fold, const_fold_aux, fold_inner, litE, Expr.is_zero, Expr.expr,
    ExprType.isLiteral, Expr.ctype, Expr.lval, Expr.location]

/-- **C5** (amended): float division by zero *is* diagnosed exactly like
integer and char zero: for a `Div` whose right operand folds to the
literal `Float 0.0`, folding raises `DivideByZero` (the left operand is
not even folded first). -/
theorem claim_c5_amended {l r r' : Expr} {ct : CType} {cx lv : Bool} {loc : Location}
    (hr : const_fold r = .ok r') (hlit : r'.expr = .literal (.float 0)) :
    const_fold (.mk (.div l r) ct cx lv loc) = .error ⟨.divideByZero, loc⟩ := by
  obtain ⟨hbr, har⟩ := const_fold_aux_of_ok hr
  simp [const_fold, const_fold_aux, fold_inner, har, Expr.is_zero, hlit]

theorem claim_c5_witness :
    const_fold (.mk (.div xId (.mk (.literal (.float 0)) (.double) false false locB))
        ctLong false false loc0) =
      .error ⟨.divideByZero, loc0⟩ :=
  claim_c5_amended (const_fold_literal (.float 0) .double false false locB) rfl

/-! ## Claim C2 -/

/-- **C2** (counterexample): the claim says `ConstOverflow` and
`DivideByZero` are raised only when *both* operands fold to literals;
but the `Div` arm checks the folded right operand for zero before
touching the left operand, so `x / 0` with a non-literal `x` raises
`DivideByZero`. -/
theorem claim_c2_counterexample :
    const_fold (.mk (.div xId (litE (.int 0))) ctLong false false loc0) =
      .error ⟨.divideByZero, loc0⟩ := by
  simp [const_fold, const_fold_aux, fold_inner, litE, xId, Expr.is_zero, Expr.expr,
    ExprType.isLiteral, Expr.ctype, Expr.lval, Expr.location]

/-- **C2** (amended): for `Div` and `Mod`, `DivideByZero` is raised
whenever the right operand folds to a zero literal, even when the left
operand is non-literal (the left operand is not folded at all in that
case); when the right operand folds to a non-zero literal and the left
operand folds to a non-literal, the fold returns the rebuilt node
without raising an error, deferring to runtime semantics. -/
theorem claim_c2_amended :
    (∀ (isMod : Bool) (l r r' : Expr) (ct : CType) (cx lv : Bool) (loc : Location),
      const_fold r = .ok r' → r'.is_zero = true →
      const_fold (.mk (if isMod then .mod l r else .div l r) ct cx lv loc) =
        .error ⟨.divideByZero, loc⟩)
    ∧ (∀ (isMod : Bool) (l r l' r' : Expr) (ct : CType) (cx lv : Bool) (loc : Location)
        (lit : Literal),
      const_fold r = .ok r' → r'.expr = .literal lit → r'.is_zero = false →
      const_fold l = .ok l' → l'.expr.isLiteral = false →
      const_fold (.mk (if isMod then .mod l r else .div l r) ct cx lv loc) =
        .ok (.mk ((if isMod then ExprType.mod else ExprType.div) l' r') ct false lv loc)) := by
  constructor
  · intro isMod l r r' ct cx lv loc hr hz
    obtain ⟨hbr, har⟩ := const_fold_aux_of_ok hr
    cases isMod <;>
      simp [const_fold, const_fold_aux, fold_inner, har, hz]
  · intro isMod l r l' r' ct cx lv loc lit hr hlit hz hl hnl
    obtain ⟨hbr, har⟩ := const_fold_aux_of_ok hr
    obtain ⟨hbl, hal⟩ := const_fold_aux_of_ok hl
    have hcx : r'.constexpr = true := by
      rw [const_fold_constexpr hr, hlit]
      rfl
    have hrefold := const_fold_aux_literal_self hlit hcx
    cases isMod with
    | false =>
      simp [const_fold, const_fold_aux, fold_inner, har, hal, hz, hrefold,
        literal_bin_op, literal_bin_op_folded_nonlit_left hnl, BinTag.apply,
        ExprType.isLiteral, Expr.ctype, Expr.lval, Expr.location]
    | true =>
      simp [const_fold, const_fold_aux, fold_inner, har, hal, hz, hrefold,
        literal_bin_op, literal_bin_op_folded_nonlit_left hnl, BinTag.apply,
        ExprType.isLiteral, Expr.ctype, Expr.lval, Expr.location]

theorem claim_c2_amended_witness :
    const_fold (.mk (.div xId (litE (.int 0))) ctSChar false false locB) =
      .error ⟨.divideByZero, locB⟩
    ∧ const_fold (.mk (.mod xId (litE (.int 3))) ctLong false false locB) =
      .ok (.mk (.mod xId (.mk (.literal (.int 3)) ctLong true false locA)) ctLong
        false false locB) :=
  ⟨claim_c2_amended.1 false xId (litE (.int 0)) _ ctSChar false false locB
      (const_fold_literal (.int 0) ctLong false false locA) (by decide),
    claim_c2_amended.2 true xId (litE (.int 3)) xId _ ctLong false false locB
      (.int 3) (const_fold_literal (.int 3) ctLong false false locA) rfl (by decide)
      const_fold_xId rfl⟩

/-! ## Claim C3 -/

/-- **C3** (confirmed): for a right-shift expression whose right operand
folds to a literal reducible via `non_negative_int` to an amount
`s ≥ S = sizeof(result-type) * CHAR_BIT` (CHAR_BIT = 8), the fold
returns the literal `0` — `Int 0` when the result type is signed,
`UnsignedInt 0` otherwise.  The code compares the amount against the
byte count `sizeof` (`fold.rs` line 465), a weaker threshold than
`S = 8 * sizeof`, so every amount `≥ S` satisfies it and the claimed
implication holds. -/
theorem claim_c3_shift_right_ge_S_folds_to_zero {l r l' r' : Expr}
    {tok : Literal} {s sz : Nat} {ct : CType} {cx lv : Bool} {loc : Location}
    (hl : const_fold l = .ok l') (hr : const_fold r = .ok r')
    (htok : r'.expr = .literal tok)
    (hamt : tok.non_negative_int = .ok s)
    (hsz : ct.sizeofB = .ok sz)
    (hS : 8 * sz ≤ s) :
    const_fold (.mk (.shift l r false) ct cx lv loc) =
      .ok (.mk (.literal (if ct.is_signed then .int 0 else .unsignedInt 0))
        ct true lv loc) := by
  obtain ⟨hbl, hal⟩ := const_fold_aux_of_ok hl
  obtain ⟨hbr, har⟩ := const_fold_aux_of_ok hr
  have hge : sz ≤ s := by omega
  cases hsig : ct.is_signed <;>
    simp [const_fold, const_fold_aux, fold_inner, shift_right, hal, har, htok,
      hamt, hsz, hge, hsig, ExprType.isLiteral, Expr.ctype, Expr.lval,
      Expr.location]

theorem claim_c3_witness :
    const_fold (.mk (.shift (litE (.int 1024)) (litE (.int 64)) false) ctLong
        false false loc0) =
      .ok (.mk (.literal (.int 0)) ctLong true false loc0) := by
  have hamt : (Literal.int 64).non_negative_int = .ok 64 := rfl
  have hsz : ctLong.sizeofB = .ok 8 := rfl
  exact claim_c3_shift_right_ge_S_folds_to_zero
    (const_fold_literal (.int 1024) ctLong false false locA)
    (const_fold_literal (.int 64) ctLong false false locA)
    rfl hamt hsz (by norm_num)

/-! ## Claim C4 -/

/-- **C4** (code bug): the claim (and the spec's intent) say a left
shift with a literal shift amount and a non-literal left operand is
re-emitted as a *left* shift; but `shift_left` rebuilds the node with
`is_left = false` (`fold.rs` line 541), silently turning `x << 2` into
a right shift.  The folded left operand and the normalized shift
literal are carried as the claim says; only the flag is wrong. -/
theorem claim_c4_left_shift_rebuilt_as_right_shift :
    const_fold (.mk (.shift xId (litE (.int 2)) true) ctLong false false loc0) =
      .ok (.mk (.shift (.mk (.id 0) ctLong false false locA)
        (.mk (.literal (.int 2)) ctLong true false locA) false) ctLong
        false false loc0) := by
  simp [const_fold, const_fold_aux, fold_inner, shift_left, shift_left_apply, litE,
    xId, ExprType.isLiteral, Expr.ctype, Expr.lval, Expr.location, Expr.expr,
    Expr.constexpr, Literal.non_negative_int, CType.sizeofB, CType.is_signed, ctLong]

/-! ## Claim C7 -/

/-- **C7** (code bug): folding is *not* idempotent.  For
`e = x << 10` (8-byte signed type, non-literal `x`), the first fold
re-emits the node with `is_left = false` (the C4 slip), and the second
fold then runs the *right*-shift path, where the amount 10 is `≥ sizeof
= 8` bytes (the C3 slip), collapsing to literal `Int 0`: both folds
succeed and `fold (fold e) ≠ fold e`. -/
theorem claim_c7_not_idempotent :
    const_fold (.mk (.shift xId (litE (.int 10)) true) ctLong false false loc0) =
      .ok (.mk (.shift (.mk (.id 0) ctLong false false locA)
        (.mk (.literal (.int 10)) ctLong true false locA) false) ctLong
        false false loc0)
    ∧ const_fold (.mk (.shift (.mk (.id 0) ctLong false false locA)
        (.mk (.literal (.int 10)) ctLong true false locA) false) ctLong
        false false loc0) =
      .ok (.mk (.literal (.int 0)) ctLong true false loc0)
    ∧ (Expr.mk (.shift (.mk (.id 0) ctLong false false locA)
        (.mk (.literal (.int 10)) ctLong true false locA) false) ctLong
        false false loc0) ≠ .mk (.literal (.int 0)) ctLong true false loc0 := by
  refine ⟨?_, ?_, ?_⟩
  · simp [const_fold, const_fold_aux, fold_inner, shift_left, shift_left_apply, litE,
      xId, ExprType.isLiteral, Expr.ctype, Expr.lval, Expr.location, Expr.expr,
      Expr.constexpr, Literal.non_negative_int, CType.sizeofB, CType.is_signed, ctLong]
  · simp [const_fold, const_fold_aux, fold_inner, shift_right, ExprType.isLiteral,
      Expr.ctype, Expr.lval, Expr.location, Expr.expr, Literal.non_negative_int,
      CType.sizeofB, CType.is_signed, ctLong]
  · intro h
    have := congrArg Expr.expr h
    simp [Expr.expr] at this

/-! ## Claim C1

Rust's checked arithmetic on `i64` overflows exactly when the true
result falls outside the `i64` range for `+`, `−`, `×`, and exactly at
`(i64::MIN, -1)` for `/` and `%` with a non-zero divisor; the following
lemmas supply the range facts for the quotient and remainder. -/

theorem natAbs_tmod (a b : Int) : (a.tmod b).natAbs = a.natAbs % b.natAbs := by
  cases a <;> cases b <;> simp [Int.tmod, Int.natAbs_neg] <;> norm_cast

theorem tmod_inRange {a b : Int} (hb : inRangeI64 b) (hb0 : b ≠ 0) :
    inRangeI64 (a.tmod b) := by
  have h1 := natAbs_tmod a b
  have h2 : a.natAbs % b.natAbs < b.natAbs := Nat.mod_lt _ (by omega)
  unfold inRangeI64 i64min i64max at *
  omega

theorem tdiv_inRange {a b : Int} (ha : inRangeI64 a) (hb : inRangeI64 b)
    (hb0 : b ≠ 0) (hno : ¬(a = i64min ∧ b = -1)) : inRangeI64 (a.tdiv b) := by
  obtain ⟨ha1, ha2⟩ := ha
  obtain ⟨hb1, hb2⟩ := hb
  simp only [i64min, i64max] at ha1 ha2 hb1 hb2
  unfold inRangeI64 i64min i64max
  by_cases hbone : b = 1
  · subst hbone
    rw [Int.tdiv_one]
    omega
  by_cases hbm1 : b = -1
  · subst hbm1
    have hmin : a ≠ i64min := fun h => hno ⟨h, rfl⟩
    unfold i64min at hmin
    rw [show a.tdiv (-1) = -a from by simpa [Int.tdiv_one] using Int.tdiv_neg a 1]
    omega
  · have h1 := Int.natAbs_tdiv a b
    have hb2' : 2 ≤ b.natAbs := by omega
    have h3 : a.natAbs / b.natAbs ≤ a.natAbs / 2 :=
      Nat.div_le_div_left hb2' (by norm_num)
    have h4 : a.natAbs ≤ 2 ^ 63 := by omega
    have h4' : a.natAbs / 2 ≤ 2 ^ 63 / 2 := Nat.div_le_div_right h4
    have h5 : (a.tdiv b).natAbs ≤ 2 ^ 62 := by
      rw [h1]
      calc a.natAbs / b.natAbs ≤ a.natAbs / 2 := h3
        _ ≤ 2 ^ 63 / 2 := h4'
        _ ≤ 2 ^ 62 := by norm_num
    omega

/-- The five arithmetic operators of claim C1. -/
inductive AOp where
  | add
  | sub
  | mul
  | div
  | mod
deriving DecidableEq, Repr

def AOp.node : AOp → Expr → Expr → ExprType
  | .add, a, b => .add a b
  | .sub, a, b => .sub a b
  | .mul, a, b => .mul a b
  | .div, a, b => .div a b
  | .mod, a, b => .mod a b

/-- The exact mathematical result `a ⊕ b` (Rust division truncates
toward zero, `%` takes the sign of the dividend). -/
def AOp.exact : AOp → Int → Int → Int
  | .add, a, b => a + b
  | .sub, a, b => a - b
  | .mul, a, b => a * b
  | .div, a, b => a.tdiv b
  | .mod, a, b => a.tmod b

/-- When native checked `i64` arithmetic `a ⊕ b` overflows: out of range
for `+`, `−`, `×`; exactly `(i64::MIN, -1)` for `/` and `%` (given a
non-zero divisor). -/
def AOp.nativeOverflows : AOp → Int → Int → Bool
  | .add, a, b => !(decide (inRangeI64 (a + b)))
  | .sub, a, b => !(decide (inRangeI64 (a - b)))
  | .mul, a, b => !(decide (inRangeI64 (a * b)))
  | .div, a, b => decide (a = i64min ∧ b = -1)
  | .mod, a, b => decide (a = i64min ∧ b = -1)

/-- **C1** (confirmed): for signed 64-bit literals `a`, `b` and each of
`+ − × / %` (`b ≠ 0` for `/` and `%`), folding `Int a ⊕ Int b` raises
`ConstOverflow` exactly when native checked `a ⊕ b` overflows — with
`is_positive` the sign test of the wrapped value, which is `true` for
the spec's example `0x7fffffffffffffff + 1` (see the witness) — and
otherwise yields the literal `Int (a ⊕ b)`. -/
theorem claim_c1_signed_arith (op : AOp) (a b : Int) (ct ct1 ct2 : CType)
    (cx cx1 cx2 lv lv1 lv2 : Bool) (loc loc1 loc2 : Location)
    (ha : inRangeI64 a) (hb : inRangeI64 b)
    (hb0 : op = .div ∨ op = .mod → b ≠ 0) :
    const_fold (.mk (op.node (.mk (.literal (.int a)) ct1 cx1 lv1 loc1)
        (.mk (.literal (.int b)) ct2 cx2 lv2 loc2)) ct cx lv loc) =
      if op.nativeOverflows a b then
        .error ⟨.constOverflow (decide (wrapI64 (op.exact a b) < 0)), loc⟩
      else .ok (.mk (.literal (.int (op.exact a b))) ct true lv loc) := by
  cases op with
  | add =>
    by_cases hov : inRangeI64 (a + b)
    · simp [const_fold, const_fold_aux, fold_inner, AOp.node, AOp.exact,
        AOp.nativeOverflows, literal_bin_op, literal_bin_op_folded, fold_scalar_bin_op,
        i64_overflowing_add, const_fold_aux_literal, Expr.expr, Expr.ctype,
        ExprType.isLiteral, Expr.lval, Expr.location, hov, wrapI64_eq_self hov]
    · have hne : wrapI64 (a + b) ≠ a + b := fun hh => hov (wrapI64_eq_iff.mp hh)
      simp [const_fold, const_fold_aux, fold_inner, AOp.node, AOp.exact,
        AOp.nativeOverflows, literal_bin_op, literal_bin_op_folded, fold_scalar_bin_op,
        i64_overflowing_add, const_fold_aux_literal, Expr.expr, Expr.ctype,
        ExprType.isLiteral, Expr.lval, Expr.location, hov, hne]
  | sub =>
    by_cases hov : inRangeI64 (a - b)
    · simp [const_fold, const_fold_aux, fold_inner, AOp.node, AOp.exact,
        AOp.nativeOverflows, literal_bin_op, literal_bin_op_folded, fold_scalar_bin_op,
        i64_overflowing_sub, const_fold_aux_literal, Expr.expr, Expr.ctype,
        ExprType.isLiteral, Expr.lval, Expr.location, hov, wrapI64_eq_self hov]
    · have hne : wrapI64 (a - b) ≠ a - b := fun hh => hov (wrapI64_eq_iff.mp hh)
      simp [const_fold, const_fold_aux, fold_inner, AOp.node, AOp.exact,
        AOp.nativeOverflows, literal_bin_op, literal_bin_op_folded, fold_scalar_bin_op,
        i64_overflowing_sub, const_fold_aux_literal, Expr.expr, Expr.ctype,
        ExprType.isLiteral, Expr.lval, Expr.location, hov, hne]
  | mul =>
    by_cases hov : inRangeI64 (a * b)
    · simp [const_fold, const_fold_aux, fold_inner, AOp.node, AOp.exact,
        AOp.nativeOverflows, literal_bin_op, literal_bin_op_folded, fold_scalar_bin_op,
        i64_overflowing_mul, const_fold_aux_literal, Expr.expr, Expr.ctype,
        ExprType.isLiteral, Expr.lval, Expr.location, hov, wrapI64_eq_self hov]
    · have hne : wrapI64 (a * b) ≠ a * b := fun hh => hov (wrapI64_eq_iff.mp hh)
      simp [const_fold, const_fold_aux, fold_inner, AOp.node, AOp.exact,
        AOp.nativeOverflows, literal_bin_op, literal_bin_op_folded, fold_scalar_bin_op,
        i64_overflowing_mul, const_fold_aux_literal, Expr.expr, Expr.ctype,
        ExprType.isLiteral, Expr.lval, Expr.location, hov, hne]
  | div =>
    have hbz : b ≠ 0 := hb0 (Or.inl rfl)
    by_cases hov : a = i64min ∧ b = -1
    · simp [const_fold, const_fold_aux, fold_inner, AOp.node, AOp.exact,
        AOp.nativeOverflows, literal_bin_op, literal_bin_op_folded, fold_scalar_bin_op,
        i64_overflowing_div, const_fold_aux_literal, Expr.expr, Expr.ctype,
        ExprType.isLiteral, Expr.lval, Expr.location, Expr.is_zero, hbz, hov]
    · have hin := tdiv_inRange ha hb hbz hov
      simp [const_fold, const_fold_aux, fold_inner, AOp.node, AOp.exact,
        AOp.nativeOverflows, literal_bin_op, literal_bin_op_folded, fold_scalar_bin_op,
        i64_overflowing_div, const_fold_aux_literal, Expr.expr, Expr.ctype,
        ExprType.isLiteral, Expr.lval, Expr.location, Expr.is_zero, hbz, hov,
        wrapI64_eq_self hin]
  | mod =>
    have hbz : b ≠ 0 := hb0 (Or.inr rfl)
    have hin := tmod_inRange (a := a) hb hbz
    by_cases hov : a = i64min ∧ b = -1
    · simp [const_fold, const_fold_aux, fold_inner, AOp.node, AOp.exact,
        AOp.nativeOverflows, literal_bin_op, literal_bin_op_folded, fold_mod_op,
        i64_overflowing_rem, const_fold_aux_literal, Expr.expr, Expr.ctype,
        ExprType.isLiteral, Expr.lval, Expr.location, Expr.is_zero, hbz, hov]
    · simp [const_fold, const_fold_aux, fold_inner, AOp.node, AOp.exact,
        AOp.nativeOverflows, literal_bin_op, literal_bin_op_folded, fold_mod_op,
        i64_overflowing_rem, const_fold_aux_literal, Expr.expr, Expr.ctype,
        ExprType.isLiteral, Expr.lval, Expr.location, Expr.is_zero, hbz, hov,
        wrapI64_eq_self hin]

theorem claim_c1_witness :
    const_fold (.mk (AOp.node .add (.mk (.literal (.int (2 ^ 63 - 1))) ctLong false
        false locA) (.mk (.literal (.int 1)) ctLong false false locB)) ctLong
      false false loc0) =
      .error ⟨.constOverflow true, loc0⟩ := by
  have h := claim_c1_signed_arith .add (2 ^ 63 - 1) 1 ctLong ctLong ctLong false
    false false false false false loc0 locA locB
    (by constructor <;> norm_num [i64min, i64max])
    (by constructor <;> norm_num [i64min, i64max])
    (fun _ => one_ne_zero)
  rw [h]
  norm_num [AOp.nativeOverflows, inRangeI64, i64min, i64max, AOp.exact, wrapI64]

end RccFold
